import Mathlib

/-!
Shallow embedding of the contextiq-rag ingestion/retrieval pipeline
(src/services/ingest.py, src/services/retrieval.py, src/services/embeddings.py,
src/utils/pdf_loader.py, src/app.py).

External collaborators (the Gemini embedding/chat APIs, the Pinecone vector
store, the pypdf extractor and the langchain text splitter) are modelled as
oracles supplied to the pipeline functions; the pipeline functions themselves
are transliterated from the Python source, preserving the order of
configuration checks, external requests and state updates.  External requests
are recorded in an explicit trace (`ExtCall`), and the Pinecone store is
explicit state (`PineconeState`).  Numeric float payloads are never inspected
arithmetically by the code, so vectors are modelled as lists of integers.
-/

deriving instance DecidableEq for Except

/-- Model of Python's `str.strip()` (used on env vars and extracted text):
drop whitespace from both ends. -/
def pyStrip (s : String) : String :=
  ⟨((s.data.dropWhile Char.isWhitespace).reverse.dropWhile Char.isWhitespace).reverse⟩

/-- Little-endian decimal digits with explicit fuel (structural recursion, so
that concrete instances reduce in the kernel). -/
def decDigitsAux : Nat → Nat → List Nat
  | 0, _ => []
  | _ + 1, 0 => []
  | fuel + 1, n + 1 => ((n + 1) % 10) :: decDigitsAux fuel ((n + 1) / 10)

/-- Little-endian decimal digits of `n`. -/
def decDigits (n : Nat) : List Nat := decDigitsAux n n

/-- Model of Python's decimal rendering `str(i)` / `f"{i}"` of a natural
number. -/
def natDecimal (n : Nat) : String :=
  if n = 0 then "0" else ⟨((decDigits n).reverse.map Nat.digitChar)⟩

/-! ## Data model -/

/-- Embedding vectors.  The pipeline never inspects the numeric entries, so the
float payload is modelled as an opaque list of integers. -/
abbrev Vec := List Int

/-- A persisted Pinecone record: namespace, id, vector and metadata map
(`{"text": chunk}` in `ingest_pdf_bytes`). -/
structure IndexRecord where
  ns : String
  id : String
  vec : Vec
  meta : List (String × String)
deriving DecidableEq

/-- Environment variables consumed by the services (values of
`os.getenv(..., "")`, before `.strip()`). -/
structure Env where
  googleApiKey : String
  pineconeApiKey : String
  pineconeIndexName : String

/-- Errors raised by the pipeline (all `ValueError`s in the Python source,
distinguished here by their origin). -/
inductive PipelineError where
  | configError (msg : String)
  | noExtractableText
  | dimensionMismatch (indexName : String) (actual expected : Nat)
  | providerError (msg : String)
  | deleteError (msg : String)
deriving DecidableEq

/-- Trace entries: one per external request issued by the pipeline, plus the
local `split_text` chunking step (recorded so that "failure before chunking"
is expressible; it is not an external request). -/
inductive ExtCall where
  | splitText
  | embedProbe
  | listIndexes
  | describeIndex (name : String)
  | createIndex (name : String) (dim : Nat)
  | deleteAll (ns : String)
  | embedDocuments (texts : List String)
  | upsert (ns : String) (count : Nat)
  | embedQueryReq (text : String)
  | queryIndex (ns : String) (topK : Nat)
  | llmGenerate (prompt : String)
deriving DecidableEq

/-- Every trace entry except the local chunking step is an external request. -/
def ExtCall.isExternal : ExtCall → Bool
  | .splitText => false
  | _ => true

/-- Requests addressed to the Pinecone vector store. -/
def ExtCall.isPineconeCall : ExtCall → Bool
  | .listIndexes => true
  | .describeIndex _ => true
  | .createIndex _ _ => true
  | .deleteAll _ => true
  | .upsert _ _ => true
  | .queryIndex _ _ => true
  | _ => false

/-- Upsert requests (writes of new records). -/
def ExtCall.isUpsertCall : ExtCall → Bool
  | .upsert _ _ => true
  | _ => false

/-- State of the Pinecone store: the set of index names, the
`describe_index` responses (`none` models `describe_index` raising), and the
persisted records across all namespaces. -/
structure PineconeState where
  existing : List String
  describeDim : String → Option Nat
  records : List IndexRecord

/-- Oracle for the Gemini embedding API: the dimension reported by the probe
request, and the batch `embed_documents` responses (`Except` models request
failure). -/
structure EmbedProvider where
  probeDim : Nat
  embedDocuments : List String → Except String (List Vec)

/-! ## services/embeddings.py -/

/-- `get_embedding_model`: checks `GOOGLE_API_KEY` and constructs the client
(no network request is made by construction). -/
def getEmbeddingModel (env : Env) : Except PipelineError Unit :=
  if pyStrip env.googleApiKey = "" then
    .error (.configError "GOOGLE_API_KEY is not set")
  else .ok ()

/-- `get_embedding_dimension`: returns the `lru_cache`d value if present;
otherwise constructs the client (checking the credential) and issues one probe
embedding request. -/
def getEmbeddingDimension (env : Env) (prov : EmbedProvider)
    (cachedDim : Option Nat) : Except PipelineError Nat × List ExtCall :=
  match cachedDim with
  | some d => (.ok d, [])
  | none =>
    match getEmbeddingModel env with
    | .error e => (.error e, [])
    | .ok _ => (.ok prov.probeDim, [.embedProbe])

/-! ## Index resolution (`_get_pinecone_index` in ingest.py and retrieval.py) -/

/-- The dimension-qualified index name `f"{index_name}-{dimension}"`. -/
def suffixedName (name : String) (dim : Nat) : String :=
  name ++ "-" ++ natDecimal dim

/-- The `chosen_name` computation of `_get_pinecone_index`: keep the base name
if it exists and its described dimension is unavailable or equal to the
requested dimension; otherwise use the dimension-qualified name. -/
def resolveIndexName (existing : List String) (describe : String → Option Nat)
    (indexName : String) (dim : Nat) : String :=
  if indexName ∈ existing then
    match describe indexName with
    | some existingDim =>
      if existingDim ≠ dim then suffixedName indexName dim else indexName
    | none => indexName
  else suffixedName indexName dim

/-- The body of `_get_pinecone_index` after the env checks: list the indexes,
resolve the name (describing the base name when it exists), create the chosen
index when absent, then re-describe the chosen index and fail on a dimension
mismatch.  Returns the result together with the updated store state and the
trace of requests issued (also on failure). -/
def ensureIndexPC (st : PineconeState) (indexName : String) (dim : Nat) :
    Except PipelineError String × PineconeState × List ExtCall :=
  let resolveCalls : List ExtCall :=
    if indexName ∈ st.existing then [.listIndexes, .describeIndex indexName]
    else [.listIndexes]
  let chosen := resolveIndexName st.existing st.describeDim indexName dim
  let createStep : PineconeState × List ExtCall :=
    if chosen ∈ st.existing then (st, [])
    else ({ st with existing := chosen :: st.existing }, [.createIndex chosen dim])
  let calls := resolveCalls ++ createStep.2 ++ [.describeIndex chosen]
  match st.describeDim chosen with
  | some actual =>
    if actual ≠ dim then (.error (.dimensionMismatch chosen actual dim), createStep.1, calls)
    else (.ok chosen, createStep.1, calls)
  | none => (.ok chosen, createStep.1, calls)

/-- `_get_pinecone_index(expected_dimension)` from ingest.py: credential and
index-name checks, then the shared resolution body. -/
def getPineconeIndexI (env : Env) (st : PineconeState) (expectedDimension : Nat) :
    Except PipelineError String × PineconeState × List ExtCall :=
  if pyStrip env.pineconeApiKey = "" then
    (.error (.configError "PINECONE_API_KEY is not set"), st, [])
  else if pyStrip env.pineconeIndexName = "" then
    (.error (.configError "PINECONE_INDEX_NAME is not set"), st, [])
  else ensureIndexPC st (pyStrip env.pineconeIndexName) expectedDimension

/-- `_get_pinecone_index()` from retrieval.py: credential and index-name
checks, then `get_embedding_dimension()` (probe), then the shared resolution
body. -/
def getPineconeIndexR (env : Env) (prov : EmbedProvider) (cachedDim : Option Nat)
    (st : PineconeState) :
    Except PipelineError String × PineconeState × List ExtCall :=
  if pyStrip env.pineconeApiKey = "" then
    (.error (.configError "PINECONE_API_KEY is not set"), st, [])
  else if pyStrip env.pineconeIndexName = "" then
    (.error (.configError "PINECONE_INDEX_NAME is not set"), st, [])
  else
    match getEmbeddingDimension env prov cachedDim with
    | (.error e, dimCalls) => (.error e, st, dimCalls)
    | (.ok dim, dimCalls) =>
      match ensureIndexPC st (pyStrip env.pineconeIndexName) dim with
      | (r, st', calls) => (r, st', dimCalls ++ calls)

/-! ## services/ingest.py -/

/-- Inputs produced by external libraries during one ingestion call: the text
extracted by `load_pdf_text` (pypdf), the `RecursiveCharacterTextSplitter`
chunking function, and the `uuid.uuid4().hex` token generated for the i-th
payload record (always 32 hex characters in Python). -/
structure IngestInput where
  pdfText : String
  split : String → List String
  uuidHex : Nat → String

/-- Record id `f"{namespace}-{uuid.uuid4().hex}-{i}"`. -/
def recordId (ns : String) (token : String) (i : Nat) : String :=
  ns ++ "-" ++ token ++ "-" ++ natDecimal i

/-- The payload loop of `ingest_pdf_bytes`:
`for i, (chunk, vector) in enumerate(zip(chunks, vectors))`, each record being
`(f"{namespace}-{uuid4().hex}-{i}", vector, {"text": chunk})`. -/
def mkPayload (ns : String) (uuidHex : Nat → String) (chunks : List String)
    (vectors : List Vec) : List IndexRecord :=
  ((chunks.zip vectors).enum).map fun p =>
    { ns := ns, id := recordId ns (uuidHex p.1) p.1, vec := p.2.2,
      meta := [("text", p.2.1)] }

/-- `index.upsert(vectors=payload, namespace=namespace)`: insert the payload,
overwriting records of the same namespace and id. -/
def upsertRecords (records : List IndexRecord) (ns : String)
    (payload : List IndexRecord) : List IndexRecord :=
  records.filter (fun r => !(r.ns == ns && payload.any (fun p => p.id == r.id)))
    ++ payload

/-- Python's substring test `needle in hay`. -/
def containsSub (needle hay : String) : Bool := decide (needle.data <:+: hay.data)

/-- The except-clause filter in `ingest_pdf_bytes`: re-raise unless the message
contains `"Namespace not found"` or `"(404)"`. -/
def nsNotFoundMsg (msg : String) : Bool :=
  containsSub "Namespace not found" msg || containsSub "(404)" msg

/-- `ingest_pdf_bytes(pdf_bytes, namespace, replace_namespace)`.  Oracles:
`prov` (embedding API), `st` (Pinecone store), `cachedDim` (the `lru_cache` of
`get_embedding_dimension`), `inp` (extractor/splitter/uuid outputs),
`deleteOutcome` (`none` = `index.delete` succeeds, `some msg` = it raises with
message `msg`).  Returns the result, the final store state, and the trace. -/
def ingestPdfBytes (env : Env) (prov : EmbedProvider) (st : PineconeState)
    (cachedDim : Option Nat) (inp : IngestInput) (deleteOutcome : Option String)
    (ns : String) (replace : Bool) :
    Except PipelineError Unit × PineconeState × List ExtCall :=
  if pyStrip inp.pdfText = "" then (.error .noExtractableText, st, [])
  else
    let chunks := inp.split inp.pdfText
    match getEmbeddingModel env with
    | .error e => (.error e, st, [.splitText])
    | .ok _ =>
      match getEmbeddingDimension env prov cachedDim with
      | (.error e, dimCalls) => (.error e, st, [.splitText] ++ dimCalls)
      | (.ok dim, dimCalls) =>
        match getPineconeIndexI env st dim with
        | (.error e, st1, pcCalls) =>
          (.error e, st1, [.splitText] ++ dimCalls ++ pcCalls)
        | (.ok _idx, st1, pcCalls) =>
          let calls0 := [ExtCall.splitText] ++ dimCalls ++ pcCalls
          let deleteStep : Except PipelineError PineconeState × List ExtCall :=
            if replace then
              match deleteOutcome with
              | none =>
                (.ok { st1 with
                        records := st1.records.filter (fun r => !(r.ns == ns)) },
                 [.deleteAll ns])
              | some msg =>
                if nsNotFoundMsg msg then (.ok st1, [.deleteAll ns])
                else (.error (.deleteError msg), [.deleteAll ns])
            else (.ok st1, [])
          match deleteStep with
          | (.error e, delCalls) => (.error e, st1, calls0 ++ delCalls)
          | (.ok st2, delCalls) =>
            match prov.embedDocuments chunks with
            | .error msg =>
              (.error (.providerError msg), st2,
               calls0 ++ delCalls ++ [.embedDocuments chunks])
            | .ok vectors =>
              let payload := mkPayload ns inp.uuidHex chunks vectors
              (.ok (),
               { st2 with records := upsertRecords st2.records ns payload },
               calls0 ++ delCalls
                 ++ [.embedDocuments chunks, .upsert ns payload.length])

/-! ## services/retrieval.py -/

/-- Oracle for the query-time collaborators: the query embedding and the
match list returned by `index.query` (each match's metadata map, `none` when
the match carries no `metadata` key). -/
structure QueryBackend where
  embedQuery : String → Vec
  queryMatches : List (Option (List (String × String)))

/-- `retrieve_chunks(embeddings, query, namespace, top_k)`: resolve the index,
embed the query, run the similarity query, then keep
`m.get("metadata", {}).get("text", "")` for matches whose metadata is a
non-empty map. -/
def retrieveChunks (env : Env) (prov : EmbedProvider) (cachedDim : Option Nat)
    (st : PineconeState) (qb : QueryBackend) (query : String) (ns : String)
    (topK : Nat) : Except PipelineError (List String) × List ExtCall :=
  match getPineconeIndexR env prov cachedDim st with
  | (.error e, _, calls) => (.error e, calls)
  | (.ok _idx, _, calls) =>
    let texts := qb.queryMatches.filterMap fun m =>
      match m with
      | some md => if md ≠ [] then some ((md.lookup "text").getD "") else none
      | none => none
    (.ok texts, calls ++ [.embedQueryReq query, .queryIndex ns topK])

/-- The fixed fallback answer of `generate_answer`. -/
def fallbackAnswer : String := "I could not find relevant context in the document."

/-- The grounding prompt built by `generate_answer`. -/
def answerPrompt (query : String) (contexts : List String) : String :=
  "You are a PDF assistant. Answer the question using ONLY the context below. "
    ++ "If the answer is not in the context, say you do not know.\n\n"
    ++ "Context:\n" ++ String.intercalate "\n\n" contexts ++ "\n\n"
    ++ "Question: " ++ query ++ "\n\nAnswer:"

/-- `generate_answer(query, contexts)`: construct the chat client (checking
`GOOGLE_API_KEY`), return the fixed fallback on an empty context list,
otherwise invoke the model on the grounding prompt (`llm` is the model
oracle). -/
def generateAnswer (env : Env) (llm : String → String) (query : String)
    (contexts : List String) : Except PipelineError String × List ExtCall :=
  if pyStrip env.googleApiKey = "" then
    (.error (.configError "GOOGLE_API_KEY is not set"), [])
  else if contexts.isEmpty then (.ok fallbackAnswer, [])
  else
    let prompt := answerPrompt query contexts
    (.ok (llm prompt), [.llmGenerate prompt])

/-- The "Ask" flow of app.py: `get_embedding_model()` then
`retrieve_chunks(...)` then `generate_answer(...)`. -/
def askOperation (env : Env) (prov : EmbedProvider) (cachedDim : Option Nat)
    (st : PineconeState) (qb : QueryBackend) (llm : String → String)
    (query : String) (ns : String) (topK : Nat) :
    Except PipelineError String × List ExtCall :=
  match getEmbeddingModel env with
  | .error e => (.error e, [])
  | .ok _ =>
    match retrieveChunks env prov cachedDim st qb query ns topK with
    | (.error e, calls) => (.error e, calls)
    | (.ok contexts, calls) =>
      match generateAnswer env llm query contexts with
      | (r, gcalls) => (r, calls ++ gcalls)

/-! ## Concrete fixtures used by witnesses and counterexamples -/

/-- A 32-character uuid4 hex token for concrete runs. -/
def wTok : String := "0123456789abcdef0123456789abcdef"

/-- Fully configured environment. -/
def wEnv : Env :=
  { googleApiKey := "g", pineconeApiKey := "p", pineconeIndexName := "idx" }

/-- Environment with the Pinecone credential unset. -/
def wEnvNoPinecone : Env :=
  { googleApiKey := "g", pineconeApiKey := "", pineconeIndexName := "idx" }

/-- Environment with the Google credential unset. -/
def wEnvNoGoogle : Env :=
  { googleApiKey := "", pineconeApiKey := "p", pineconeIndexName := "idx" }

/-- A record of a previously ingested document A in namespace `latest`. -/
def wRecA : IndexRecord :=
  { ns := "latest", id := "latest-old-0", vec := [1], meta := [("text", "docA")] }

/-- Describe oracle: base index `idx` has dimension 3. -/
def wDescribe : String → Option Nat := fun n => if n = "idx" then some 3 else none

/-- Store whose base index `idx` exists with dimension 3 and which already
holds one record of document A in namespace `latest`. -/
def wStore : PineconeState :=
  { existing := ["idx"], describeDim := wDescribe, records := [wRecA] }

/-- Store where the base index has dimension 5 and the dimension-qualified
index `idx-3` exists with a stale dimension 9. -/
def wStoreMismatch : PineconeState :=
  { existing := ["idx", "idx-3"],
    describeDim := fun n =>
      if n = "idx" then some 5 else if n = "idx-3" then some 9 else none,
    records := [] }

/-- Embedding oracle: dimension 3, one vector per chunk. -/
def wProv : EmbedProvider :=
  { probeDim := 3, embedDocuments := fun ts => .ok (ts.map (fun _ => [1])) }

/-- Embedding oracle whose batch request fails. -/
def wProvFail : EmbedProvider :=
  { probeDim := 3, embedDocuments := fun _ => .error "boom" }

/-- Document B: extraction yields `docB`, one chunk, fixed uuid token. -/
def wInpB : IngestInput :=
  { pdfText := "docB", split := fun t => [t], uuidHex := fun _ => wTok }

/-- A whitespace-only extraction result. -/
def wInpBlank : IngestInput :=
  { pdfText := " \n ", split := fun t => [t], uuidHex := fun _ => wTok }

/-- Query backend oracle with no matches. -/
def wQB : QueryBackend :=
  { embedQuery := fun _ => [1], queryMatches := [] }

/-- Document whose splitter yields two chunks. -/
def wInpTwo : IngestInput :=
  { pdfText := "docB", split := fun t => [t, t], uuidHex := fun _ => wTok }

/-- Embedding oracle returning a single vector regardless of batch size. -/
def wProvOne : EmbedProvider :=
  { probeDim := 3, embedDocuments := fun _ => .ok [[1]] }

/-! ## Decimal-rendering lemmas -/

theorem decDigitsAux_eq_digits : ∀ (fuel n : Nat), n ≤ fuel →
    decDigitsAux fuel n = Nat.digits 10 n
  | 0, 0, _ => by simp [decDigitsAux]
  | 0, _ + 1, h => by omega
  | _ + 1, 0, _ => by simp [decDigitsAux]
  | fuel + 1, n + 1, h => by
    rw [decDigitsAux, Nat.digits_def' (by norm_num : 1 < 10) (Nat.succ_pos n)]
    have hlt : (n + 1) / 10 < n + 1 := Nat.div_lt_self (Nat.succ_pos n) (by norm_num)
    rw [decDigitsAux_eq_digits fuel ((n + 1) / 10) (by omega)]

theorem decDigits_eq_digits (n : Nat) : decDigits n = Nat.digits 10 n :=
  decDigitsAux_eq_digits n n le_rfl

theorem digitChar_inj_lt : ∀ d₁ < 10, ∀ d₂ < 10,
    Nat.digitChar d₁ = Nat.digitChar d₂ → d₁ = d₂ := by decide

theorem map_digitChar_inj : ∀ (l₁ l₂ : List Nat), (∀ d ∈ l₁, d < 10) →
    (∀ d ∈ l₂, d < 10) → l₁.map Nat.digitChar = l₂.map Nat.digitChar → l₁ = l₂
  | [], [], _, _, _ => rfl
  | [], _ :: _, _, _, h => by simp at h
  | _ :: _, [], _, _, h => by simp at h
  | a :: l₁, b :: l₂, h₁, h₂, h => by
    simp only [List.map_cons, List.cons.injEq] at h
    have ha : a = b := digitChar_inj_lt a (h₁ a (by simp)) b (h₂ b (by simp)) h.1
    have hl : l₁ = l₂ := map_digitChar_inj l₁ l₂
      (fun d hd => h₁ d (by simp [hd])) (fun d hd => h₂ d (by simp [hd])) h.2
    rw [ha, hl]

theorem natDecimal_ne_zero_str {n : Nat} (hn : n ≠ 0) : natDecimal n ≠ "0" := by
  intro h
  rw [natDecimal, if_neg hn] at h
  have hdata : (decDigits n).reverse.map Nat.digitChar = ['0'] := congrArg String.data h
  have hne : Nat.digits 10 n ≠ [] := Nat.digits_ne_nil_iff_ne_zero.mpr hn
  have hlast := Nat.getLast_digit_ne_zero 10 hn
  rw [decDigits_eq_digits] at hdata
  rcases hrev : (Nat.digits 10 n).reverse with _ | ⟨d, ds⟩
  · rw [hrev] at hdata; simp at hdata
  · rw [hrev] at hdata
    simp only [List.map_cons, List.cons.injEq] at hdata
    have hds : ds = [] := by
      have := hdata.2
      cases ds with
      | nil => rfl
      | cons _ _ => simp at this
    subst hds
    have hdig : Nat.digits 10 n = [d] := by
      have := congrArg List.reverse hrev
      simpa using this
    have hd10 : d < 10 := Nat.digits_lt_base (by norm_num) (by rw [hdig]; simp)
    have hd0 : d = 0 := digitChar_inj_lt d hd10 0 (by norm_num) hdata.1
    apply hlast
    simp [hdig, hd0]

theorem natDecimal_injective : Function.Injective natDecimal := by
  intro n m h
  by_cases hn : n = 0 <;> by_cases hm : m = 0
  · rw [hn, hm]
  · exact absurd ((by rw [← h, natDecimal, if_pos hn]) : natDecimal m = "0")
      (natDecimal_ne_zero_str hm)
  · exact absurd ((by rw [h, natDecimal, if_pos hm]) : natDecimal n = "0")
      (natDecimal_ne_zero_str hn)
  · rw [natDecimal, if_neg hn, natDecimal, if_neg hm] at h
    have hdata : (decDigits n).reverse.map Nat.digitChar
        = (decDigits m).reverse.map Nat.digitChar := congrArg String.data h
    rw [decDigits_eq_digits, decDigits_eq_digits] at hdata
    have hrev : (Nat.digits 10 n).reverse = (Nat.digits 10 m).reverse :=
      map_digitChar_inj _ _
        (fun d hd => Nat.digits_lt_base (by norm_num) (List.mem_reverse.mp hd))
        (fun d hd => Nat.digits_lt_base (by norm_num) (List.mem_reverse.mp hd)) hdata
    exact Nat.digits_inj_iff.mp (List.reverse_injective hrev)
/-! ## Helper lemmas about index resolution -/

theorem ensureIndexPC_records (st : PineconeState) (name : String) (dim : Nat) :
    (ensureIndexPC st name dim).2.1.records = st.records := by
  simp only [ensureIndexPC]
  repeat' split
  all_goals simp_all

theorem ensureIndexPC_existing (st : PineconeState) (name : String) (dim : Nat) :
    (ensureIndexPC st name dim).2.1.existing =
      if resolveIndexName st.existing st.describeDim name dim ∈ st.existing
      then st.existing
      else resolveIndexName st.existing st.describeDim name dim :: st.existing := by
  simp only [ensureIndexPC]
  repeat' split
  all_goals simp_all

theorem ensureIndexPC_create_mem (st : PineconeState) (name : String) (dim : Nat) :
    ExtCall.createIndex (resolveIndexName st.existing st.describeDim name dim) dim
        ∈ (ensureIndexPC st name dim).2.2
      ↔ resolveIndexName st.existing st.describeDim name dim ∉ st.existing := by
  simp only [ensureIndexPC]
  repeat' split
  all_goals simp_all

theorem ensureIndexPC_fst_ok (st : PineconeState) (name : String) (dim : Nat)
    (h : ∀ d, st.describeDim (resolveIndexName st.existing st.describeDim name dim)
        = some d → d = dim) :
    (ensureIndexPC st name dim).1
      = .ok (resolveIndexName st.existing st.describeDim name dim) := by
  simp only [ensureIndexPC]
  split
  next actual heq =>
    have : actual = dim := h actual heq
    simp [this]
  next => rfl

theorem ensureIndexPC_fst_err (st : PineconeState) (name : String) (dim d : Nat)
    (hd : st.describeDim (resolveIndexName st.existing st.describeDim name dim) = some d)
    (hne : d ≠ dim) :
    (ensureIndexPC st name dim).1
      = .error (.dimensionMismatch (resolveIndexName st.existing st.describeDim name dim) d dim) := by
  simp only [ensureIndexPC]
  split <;> simp_all

theorem ensureIndexPC_fst_ok_imp (st : PineconeState) (name : String) (dim : Nat)
    (h : String) (hok : (ensureIndexPC st name dim).1 = .ok h) :
    h = resolveIndexName st.existing st.describeDim name dim
      ∧ ∀ d, st.describeDim h = some d → d = dim := by
  revert hok
  simp only [ensureIndexPC]
  split
  next actual heq =>
    split
    next => intro hok; simp at hok
    next hne =>
      intro hok
      simp only [Except.ok.injEq] at hok
      subst hok
      refine ⟨rfl, fun d hd => ?_⟩
      rw [heq] at hd
      cases hd
      omega
  next hnone =>
    intro hok
    simp only [Except.ok.injEq] at hok
    subst hok
    refine ⟨rfl, fun d hd => ?_⟩
    rw [hnone] at hd
    cases hd

/-! ## Helper lemmas about the upsert payload -/

theorem mkPayload_length (ns : String) (u : Nat → String) (chunks : List String)
    (vectors : List Vec) :
    (mkPayload ns u chunks vectors).length = min chunks.length vectors.length := by
  simp [mkPayload, List.length_zip]

theorem mkPayload_map_meta_vec (ns : String) (u : Nat → String)
    (chunks : List String) (vectors : List Vec) :
    (mkPayload ns u chunks vectors).map (fun r => (r.meta, r.vec))
      = (chunks.zip vectors).map (fun cv => ([("text", cv.1)], cv.2)) := by
  simp only [mkPayload, List.map_map]
  have : ((fun r : IndexRecord => (r.meta, r.vec)) ∘ fun p : Nat × (String × Vec) =>
      ({ ns := ns, id := recordId ns (u p.1) p.1, vec := p.2.2,
         meta := [("text", p.2.1)] } : IndexRecord))
      = (fun cv : String × Vec => (([("text", cv.1)] : List (String × String)), cv.2)) ∘ Prod.snd := rfl
  rw [this, ← List.map_map, List.enum_map_snd]

theorem mkPayload_ns (ns : String) (u : Nat → String) (chunks : List String)
    (vectors : List Vec) : ∀ r ∈ mkPayload ns u chunks vectors, r.ns = ns := by
  intro r hr
  simp only [mkPayload, List.mem_map] at hr
  obtain ⟨p, _, hp⟩ := hr
  rw [← hp]

theorem mkPayload_ids (ns : String) (u : Nat → String) (chunks : List String)
    (vectors : List Vec) :
    (mkPayload ns u chunks vectors).map (fun r => r.id)
      = (List.range (min chunks.length vectors.length)).map
          (fun i => recordId ns (u i) i) := by
  apply List.ext_getElem
  · simp [mkPayload, List.length_zip]
  · intro i h1 h2
    simp only [mkPayload, List.map_map, List.getElem_map, List.getElem_range]
    have hi : i < (chunks.zip vectors).enum.length := by
      simpa [mkPayload] using h1
    have := List.getElem_enum (chunks.zip vectors) i hi
    simp [this]

theorem recordId_inj {ns t₁ t₂ : String} {i j : Nat} (h₁ : t₁.length = 32)
    (h₂ : t₂.length = 32) (h : recordId ns t₁ i = recordId ns t₂ j) : i = j := by
  have hdata := congrArg String.data h
  simp only [recordId, String.data_append, List.append_assoc,
    List.singleton_append] at hdata
  have h2 := List.append_cancel_left hdata
  have hlen : ('-' :: t₁.data).length = ('-' :: t₂.data).length := by
    have e₁ : t₁.data.length = t₁.length := rfl
    have e₂ : t₂.data.length = t₂.length := rfl
    simp only [List.length_cons, e₁, e₂, h₁, h₂]
  obtain ⟨-, hrest⟩ := List.append_inj h2 hlen
  simp only [List.cons.injEq, true_and] at hrest
  exact natDecimal_injective (String.ext hrest)

theorem mkPayload_ids_nodup (ns : String) (u : Nat → String)
    (chunks : List String) (vectors : List Vec)
    (hu : ∀ i, (u i).length = 32) :
    ((mkPayload ns u chunks vectors).map (fun r => r.id)).Nodup := by
  rw [mkPayload_ids]
  apply List.Nodup.map_on
  · intro i _ j _ hij
    exact recordId_inj (hu i) (hu j) hij
  · exact List.nodup_range _

/-! ## Trace helper lemmas -/

theorem getEmbeddingDimension_calls (env : Env) (prov : EmbedProvider)
    (cachedDim : Option Nat) :
    (getEmbeddingDimension env prov cachedDim).2 = []
    ∨ (getEmbeddingDimension env prov cachedDim).2 = [ExtCall.embedProbe] := by
  cases cachedDim with
  | some d => left; rfl
  | none =>
    rcases h : getEmbeddingModel env with e | u <;>
      simp [getEmbeddingDimension, h]

theorem getEmbeddingDimension_not_pinecone (env : Env) (prov : EmbedProvider)
    (cachedDim : Option Nat) :
    ∀ c ∈ (getEmbeddingDimension env prov cachedDim).2,
      c.isPineconeCall = false ∧ c.isUpsertCall = false := by
  intro c hc
  rcases getEmbeddingDimension_calls env prov cachedDim with h | h <;> rw [h] at hc
  · simp at hc
  · simp at hc
    subst hc
    exact ⟨rfl, rfl⟩

theorem ensureIndexPC_no_upsert (st : PineconeState) (name : String) (dim : Nat) :
    ∀ c ∈ (ensureIndexPC st name dim).2.2, c.isUpsertCall = false := by
  intro c hc
  simp only [ensureIndexPC] at hc
  revert hc
  repeat' split
  all_goals intro hc
  all_goals simp at hc
  all_goals casesm* _ ∨ _
  all_goals subst_vars
  all_goals rfl

theorem getPineconeIndexI_no_upsert (env : Env) (st : PineconeState) (d : Nat) :
    ∀ c ∈ (getPineconeIndexI env st d).2.2, c.isUpsertCall = false := by
  intro c hc
  simp only [getPineconeIndexI] at hc
  revert hc
  split
  · simp
  · split
    · simp
    · exact fun hc => ensureIndexPC_no_upsert _ _ _ c hc

/-! ## Claims -/

/-- C2: index-name resolution follows the three-case decision table of
`_get_pinecone_index`: (a) a base-named index whose declared dimension equals
the requested dimension is resolved as the base name; (b) a base-named index
with a different declared dimension resolves to the dimension-qualified name
`{base_name}-{dimension}`, which is created exactly when absent, while the
original index and all records stay untouched; (c) with no base-named index
the dimension-qualified name is resolved and created exactly when absent. -/
theorem c2_index_resolution_decision_table (st : PineconeState) (name : String)
    (dim : Nat) :
    (name ∈ st.existing → st.describeDim name = some dim →
        resolveIndexName st.existing st.describeDim name dim = name)
  ∧ (∀ d, name ∈ st.existing → st.describeDim name = some d → d ≠ dim →
        resolveIndexName st.existing st.describeDim name dim = suffixedName name dim)
  ∧ (name ∉ st.existing →
        resolveIndexName st.existing st.describeDim name dim = suffixedName name dim)
  ∧ (ensureIndexPC st name dim).2.1.existing
      = (if resolveIndexName st.existing st.describeDim name dim ∈ st.existing
         then st.existing
         else resolveIndexName st.existing st.describeDim name dim :: st.existing)
  ∧ (∀ n ∈ st.existing, n ∈ (ensureIndexPC st name dim).2.1.existing)
  ∧ (ExtCall.createIndex (resolveIndexName st.existing st.describeDim name dim) dim
        ∈ (ensureIndexPC st name dim).2.2
      ↔ resolveIndexName st.existing st.describeDim name dim ∉ st.existing)
  ∧ (ensureIndexPC st name dim).2.1.records = st.records := by
  refine ⟨?_, ?_, ?_, ensureIndexPC_existing st name dim, ?_,
    ensureIndexPC_create_mem st name dim, ensureIndexPC_records st name dim⟩
  · intro hmem hdesc
    simp [resolveIndexName, hmem, hdesc]
  · intro d hmem hdesc hne
    simp [resolveIndexName, hmem, hdesc, hne]
  · intro hmem
    simp [resolveIndexName, hmem]
  · intro n hn
    rw [ensureIndexPC_existing]
    split <;> simp [hn]

/-- Witness for C2: on a store whose only index is `idx` with dimension 3,
requesting dimension 5 resolves to `idx-5` and creates it (case (b)), while
requesting dimension 3 keeps `idx` (case (a)); an unknown base name resolves
to its qualified name (case (c)). -/
theorem c2_witness :
    resolveIndexName wStore.existing wStore.describeDim "idx" 5 = suffixedName "idx" 5
  ∧ resolveIndexName wStore.existing wStore.describeDim "idx" 3 = "idx"
  ∧ resolveIndexName wStore.existing wStore.describeDim "other" 3
      = suffixedName "other" 3
  ∧ (ExtCall.createIndex (resolveIndexName wStore.existing wStore.describeDim "idx" 5) 5
        ∈ (ensureIndexPC wStore "idx" 5).2.2
      ↔ resolveIndexName wStore.existing wStore.describeDim "idx" 5 ∉ wStore.existing) :=
  ⟨(c2_index_resolution_decision_table wStore "idx" 5).2.1 3 (by decide) rfl
      (by decide),
   (c2_index_resolution_decision_table wStore "idx" 3).1 (by decide) rfl,
   (c2_index_resolution_decision_table wStore "other" 3).2.2.1 (by decide),
   (c2_index_resolution_decision_table wStore "idx" 5).2.2.2.2.2.1⟩

/-- C3: after resolution the chosen index's described dimension is re-checked:
whenever the store describes the resolved index with a dimension different
from the requested one, `_get_pinecone_index` fails with the dimension
mismatch error; consequently a successfully returned handle never has a
described dimension different from the requested one. -/
theorem c3_dimension_reverification (st : PineconeState) (name : String)
    (dim : Nat) :
    (∀ d, st.describeDim (resolveIndexName st.existing st.describeDim name dim)
          = some d → d ≠ dim →
        (ensureIndexPC st name dim).1
          = .error (.dimensionMismatch
              (resolveIndexName st.existing st.describeDim name dim) d dim))
  ∧ ∀ h, (ensureIndexPC st name dim).1 = .ok h →
      ∀ d, st.describeDim h = some d → d = dim := by
  constructor
  · intro d hd hne
    exact ensureIndexPC_fst_err st name dim d hd hne
  · intro h hok
    exact (ensureIndexPC_fst_ok_imp st name dim h hok).2

/-- Witness for C3: with base index `idx` of dimension 5 and a stale `idx-3`
of dimension 9, requesting dimension 3 resolves to `idx-3` and fails with the
mismatch error; on the matching store the returned handle `idx` is described
with exactly the requested dimension 3. -/
theorem c3_witness :
    (ensureIndexPC wStoreMismatch "idx" 3).1
      = .error (.dimensionMismatch "idx-3" 9 3)
  ∧ (3 : Nat) = 3 :=
  ⟨(c3_dimension_reverification wStoreMismatch "idx" 3).1 9 (by decide) (by decide),
   (c3_dimension_reverification wStore "idx" 3).2 "idx" (by decide) 3 (by decide)⟩

/-- C4: a PDF whose extracted text is blank or whitespace-only makes
`ingest_pdf_bytes` fail with the no-extractable-text error before the
chunking step and before any external request, leaving the store unchanged. -/
theorem c4_no_extractable_text_fails_early (env : Env) (prov : EmbedProvider)
    (st : PineconeState) (cachedDim : Option Nat) (inp : IngestInput)
    (deleteOutcome : Option String) (ns : String) (replace : Bool)
    (hT : pyStrip inp.pdfText = "") :
    ingestPdfBytes env prov st cachedDim inp deleteOutcome ns replace
      = (.error .noExtractableText, st, []) := by
  unfold ingestPdfBytes
  rw [if_pos hT]

/-- Witness for C4: a whitespace-only extraction fails with the
no-extractable-text error, an empty trace and an unchanged store. -/
theorem c4_witness :
    ingestPdfBytes wEnv wProv wStore (some 3) wInpBlank none "latest" true
      = (.error .noExtractableText, wStore, []) :=
  c4_no_extractable_text_fails_early wEnv wProv wStore (some 3) wInpBlank none
    "latest" true (by decide)

/-- C9: within one ingestion call all generated record ids are pairwise
distinct: each id combines the namespace, a fresh uuid4 hex token (32
characters) and the chunk ordinal, so the id list of the payload has no
duplicates. -/
theorem c9_record_ids_nodup (ns : String) (u : Nat → String)
    (chunks : List String) (vectors : List Vec)
    (hu : ∀ i, (u i).length = 32) :
    ((mkPayload ns u chunks vectors).map (fun r => r.id)).Nodup :=
  mkPayload_ids_nodup ns u chunks vectors hu

/-- Witness for C9: a concrete two-chunk payload (with identical uuid tokens,
so distinctness comes from the ordinal) has pairwise distinct ids. -/
theorem c9_witness :
    ((mkPayload "latest" (fun _ => wTok) ["a", "b"] [[1], [2]]).map
        (fun r => r.id)).Nodup :=
  c9_record_ids_nodup "latest" (fun _ => wTok) ["a", "b"] [[1], [2]]
    (fun _ => rfl)

/-- C6 as stated is violated when the Google credential is unset:
`generate_answer` constructs the chat client before the empty-context check,
so `generate_answer(query, [])` raises the configuration error instead of
returning the fallback string (the provider is still never invoked). -/
theorem c6_counterexample_missing_key :
    generateAnswer wEnvNoGoogle (fun _ => "answer") "q" []
      = (.error (.configError "GOOGLE_API_KEY is not set"), [])
  ∧ (generateAnswer wEnvNoGoogle (fun _ => "answer") "q" []).1
      ≠ .ok fallbackAnswer := by
  exact ⟨by decide, by decide⟩

/-- C6 (amended): provided `GOOGLE_API_KEY` is set (non-blank),
`generate_answer(query, [])` returns the fixed fallback string with no
external call; and on an empty context list the generation provider is never
invoked regardless of configuration. -/
theorem c6_empty_context_short_circuit (env : Env) (llm : String → String)
    (query : String) :
    (¬ pyStrip env.googleApiKey = "" →
        generateAnswer env llm query [] = (.ok fallbackAnswer, []))
  ∧ (generateAnswer env llm query []).2 = [] := by
  constructor
  · intro h
    simp [generateAnswer, h]
  · by_cases h : pyStrip env.googleApiKey = "" <;> simp [generateAnswer, h]

/-- Witness for C6: with a configured key, the empty-context call returns the
fallback and issues no external request. -/
theorem c6_witness :
    generateAnswer wEnv (fun _ => "answer") "q" [] = (.ok fallbackAnswer, []) :=
  (c6_empty_context_short_circuit wEnv (fun _ => "answer") "q").1 (by decide)

/-- C7 as stated is violated in ingestion: with the Google credential set but
the Pinecone credential unset, `ingest_pdf_bytes` issues the embedding
dimension probe (an external request) before raising the configuration
error. -/
theorem c7_counterexample_probe_before_pinecone_check :
    (ingestPdfBytes wEnvNoPinecone wProv wStore none wInpB none "latest" true).1
      = .error (.configError "PINECONE_API_KEY is not set")
  ∧ ((ingestPdfBytes wEnvNoPinecone wProv wStore none wInpB none
        "latest" true).2.2.filter ExtCall.isExternal) = [ExtCall.embedProbe] := by
  exact ⟨by decide, by decide⟩

/-- C7 (amended): a missing Google credential makes ingestion fail before any
external request; with the Google credential set, missing Pinecone
configuration makes ingestion fail with a configuration error before any
vector-store request (though the embedding probe may already have been
issued); and any missing credential or index name makes the retrieval "ask"
operation fail before any external request. -/
theorem c7_config_fail_fast :
    (∀ (env : Env) (prov : EmbedProvider) (st : PineconeState)
        (cachedDim : Option Nat) (inp : IngestInput) (dOut : Option String)
        (ns : String) (replace : Bool),
      pyStrip env.googleApiKey = "" → ¬ pyStrip inp.pdfText = "" →
      (ingestPdfBytes env prov st cachedDim inp dOut ns replace).1
          = .error (.configError "GOOGLE_API_KEY is not set")
      ∧ ((ingestPdfBytes env prov st cachedDim inp dOut ns replace).2.2.filter
          ExtCall.isExternal) = [])
  ∧ (∀ (env : Env) (prov : EmbedProvider) (st : PineconeState)
        (cachedDim : Option Nat) (inp : IngestInput) (dOut : Option String)
        (ns : String) (replace : Bool),
      ¬ pyStrip env.googleApiKey = "" →
      (pyStrip env.pineconeApiKey = "" ∨ pyStrip env.pineconeIndexName = "") →
      ¬ pyStrip inp.pdfText = "" →
      (∃ m, (ingestPdfBytes env prov st cachedDim inp dOut ns replace).1
          = .error (.configError m))
      ∧ ((ingestPdfBytes env prov st cachedDim inp dOut ns replace).2.2.filter
          ExtCall.isPineconeCall) = [])
  ∧ (∀ (env : Env) (prov : EmbedProvider) (cachedDim : Option Nat)
        (st : PineconeState) (qb : QueryBackend) (llm : String → String)
        (query ns : String) (topK : Nat),
      (pyStrip env.googleApiKey = "" ∨ pyStrip env.pineconeApiKey = ""
        ∨ pyStrip env.pineconeIndexName = "") →
      (∃ m, (askOperation env prov cachedDim st qb llm query ns topK).1
          = .error (.configError m))
      ∧ ((askOperation env prov cachedDim st qb llm query ns topK).2.filter
          ExtCall.isExternal) = []) := by
  refine ⟨?_, ?_, ?_⟩
  · intro env prov st cachedDim inp dOut ns replace hg hT
    have hG : getEmbeddingModel env
        = .error (.configError "GOOGLE_API_KEY is not set") := by
      simp [getEmbeddingModel, hg]
    constructor
    · simp only [ingestPdfBytes, if_neg hT, hG]
    · simp only [ingestPdfBytes, if_neg hT, hG]
      rfl
  · intro env prov st cachedDim inp dOut ns replace hg hpc hT
    have hG : getEmbeddingModel env = .ok () := by
      simp [getEmbeddingModel, hg]
    obtain ⟨dim, dimCalls, hD⟩ : ∃ dim dimCalls,
        getEmbeddingDimension env prov cachedDim = (.ok dim, dimCalls) := by
      cases cachedDim with
      | some d => exact ⟨d, [], rfl⟩
      | none =>
        exact ⟨prov.probeDim, [.embedProbe], by simp [getEmbeddingDimension, hG]⟩
    obtain ⟨m, hPm⟩ : ∃ m,
        getPineconeIndexI env st dim = (.error (.configError m), st, []) := by
      by_cases hk : pyStrip env.pineconeApiKey = ""
      · exact ⟨"PINECONE_API_KEY is not set", by simp [getPineconeIndexI, hk]⟩
      · rcases hpc with h | h
        · exact absurd h hk
        · exact ⟨"PINECONE_INDEX_NAME is not set",
            by simp [getPineconeIndexI, hk, h]⟩
    constructor
    · exact ⟨m, by simp only [ingestPdfBytes, if_neg hT, hG, hD, hPm]⟩
    · have htr : (ingestPdfBytes env prov st cachedDim inp dOut ns replace).2.2
          = [ExtCall.splitText] ++ dimCalls ++ [] := by
        simp only [ingestPdfBytes, if_neg hT, hG, hD, hPm]
      rw [htr]
      simp only [List.filter_append, List.append_nil]
      have h1 : dimCalls.filter ExtCall.isPineconeCall = [] := by
        rw [List.filter_eq_nil_iff]
        intro c hc
        have := (getEmbeddingDimension_not_pinecone env prov cachedDim c
          (by rw [hD]; exact hc)).1
        simp [this]
      rw [h1]
      rfl
  · intro env prov cachedDim st qb llm query ns topK hcfg
    by_cases hg : pyStrip env.googleApiKey = ""
    · have hG : getEmbeddingModel env
          = .error (.configError "GOOGLE_API_KEY is not set") := by
        simp [getEmbeddingModel, hg]
      refine ⟨⟨"GOOGLE_API_KEY is not set", ?_⟩, ?_⟩ <;>
        simp only [askOperation, hG] <;> rfl
    · have hG : getEmbeddingModel env = .ok () := by
        simp [getEmbeddingModel, hg]
      have hpn : pyStrip env.pineconeApiKey = ""
          ∨ pyStrip env.pineconeIndexName = "" := by
        rcases hcfg with h | h | h
        · exact absurd h hg
        · exact .inl h
        · exact .inr h
      obtain ⟨m, hRm⟩ : ∃ m,
          getPineconeIndexR env prov cachedDim st
            = (.error (.configError m), st, []) := by
        by_cases hk : pyStrip env.pineconeApiKey = ""
        · exact ⟨"PINECONE_API_KEY is not set", by simp [getPineconeIndexR, hk]⟩
        · rcases hpn with h | h
          · exact absurd h hk
          · exact ⟨"PINECONE_INDEX_NAME is not set",
              by simp [getPineconeIndexR, hk, h]⟩
      refine ⟨⟨m, ?_⟩, ?_⟩ <;>
        simp only [askOperation, hG, retrieveChunks, hRm] <;> rfl

/-- Witness for C7: concrete runs for each amended case — missing Google key
in ingestion (no external request), missing Pinecone key in ingestion (no
vector-store request), and missing Pinecone key in retrieval (no external
request). -/
theorem c7_witness :
    ((ingestPdfBytes wEnvNoGoogle wProv wStore (some 3) wInpB none
        "latest" true).2.2.filter ExtCall.isExternal) = []
  ∧ ((ingestPdfBytes wEnvNoPinecone wProv wStore (some 3) wInpB none
        "latest" true).2.2.filter ExtCall.isPineconeCall) = []
  ∧ ((askOperation wEnvNoPinecone wProv (some 3) wStore wQB (fun _ => "a")
        "q" "latest" 5).2.filter ExtCall.isExternal) = [] :=
  ⟨(c7_config_fail_fast.1 wEnvNoGoogle wProv wStore (some 3) wInpB none
      "latest" true (by decide) (by decide)).2,
   (c7_config_fail_fast.2.1 wEnvNoPinecone wProv wStore (some 3) wInpB none
      "latest" true (by decide) (Or.inl (by decide)) (by decide)).2,
   (c7_config_fail_fast.2.2 wEnvNoPinecone wProv (some 3) wStore wQB
      (fun _ => "a") "q" "latest" 5 (Or.inr (Or.inl (by decide)))).2⟩

/-- C10: the upsert payload of `ingest_pdf_bytes` follows chunk order, the
i-th record carrying metadata `{"text": chunks[i]}` and vector `vectors[i]`;
its length is `min(len(chunks), len(vectors))`, and when the provider returns
fewer vectors than chunks the surplus chunks are silently dropped: ingestion
still succeeds and upserts exactly `min` records. -/
theorem c10_payload_zip_semantics (env : Env) (prov : EmbedProvider)
    (st : PineconeState) (cachedDim : Option Nat) (inp : IngestInput)
    (ns : String) (dim : Nat) (dimCalls : List ExtCall) (idx : String)
    (st1 : PineconeState) (pcCalls : List ExtCall) (vectors : List Vec)
    (hT : ¬ pyStrip inp.pdfText = "")
    (hG : getEmbeddingModel env = .ok ())
    (hD : getEmbeddingDimension env prov cachedDim = (.ok dim, dimCalls))
    (hP : getPineconeIndexI env st dim = (.ok idx, st1, pcCalls))
    (hE : prov.embedDocuments (inp.split inp.pdfText) = .ok vectors) :
    (mkPayload ns inp.uuidHex (inp.split inp.pdfText) vectors).length
        = min (inp.split inp.pdfText).length vectors.length
  ∧ (mkPayload ns inp.uuidHex (inp.split inp.pdfText) vectors).map
        (fun r => (r.meta, r.vec))
      = ((inp.split inp.pdfText).zip vectors).map
          (fun cv => ([("text", cv.1)], cv.2))
  ∧ (ingestPdfBytes env prov st cachedDim inp none ns false).1 = .ok ()
  ∧ ExtCall.upsert ns (min (inp.split inp.pdfText).length vectors.length)
      ∈ (ingestPdfBytes env prov st cachedDim inp none ns false).2.2 := by
  refine ⟨mkPayload_length _ _ _ _, mkPayload_map_meta_vec _ _ _ _, ?_, ?_⟩
  · simp only [ingestPdfBytes, if_neg hT, hG, hD, hP, hE]
    rfl
  · rw [← mkPayload_length ns inp.uuidHex (inp.split inp.pdfText) vectors]
    simp only [ingestPdfBytes, if_neg hT, hG, hD, hP, hE]
    simp [List.mem_append]

/-- Witness for C10: two chunks but a single returned vector — ingestion
succeeds and upserts exactly one record. -/
theorem c10_witness :
    (mkPayload "latest" wInpTwo.uuidHex (wInpTwo.split wInpTwo.pdfText)
        [[1]]).length = 1
  ∧ (ingestPdfBytes wEnv wProvOne wStore (some 3) wInpTwo none
        "latest" false).1 = .ok ()
  ∧ ExtCall.upsert "latest" 1
      ∈ (ingestPdfBytes wEnv wProvOne wStore (some 3) wInpTwo none
          "latest" false).2.2 :=
  ⟨(c10_payload_zip_semantics wEnv wProvOne wStore (some 3) wInpTwo "latest" 3
      [] "idx" wStore
      [ExtCall.listIndexes, ExtCall.describeIndex "idx", ExtCall.describeIndex "idx"]
      [[1]] (by decide) rfl rfl rfl rfl).1,
   (c10_payload_zip_semantics wEnv wProvOne wStore (some 3) wInpTwo "latest" 3
      [] "idx" wStore
      [ExtCall.listIndexes, ExtCall.describeIndex "idx", ExtCall.describeIndex "idx"]
      [[1]] (by decide) rfl rfl rfl rfl).2.2.1,
   (c10_payload_zip_semantics wEnv wProvOne wStore (some 3) wInpTwo "latest" 3
      [] "idx" wStore
      [ExtCall.listIndexes, ExtCall.describeIndex "idx", ExtCall.describeIndex "idx"]
      [[1]] (by decide) rfl rfl rfl rfl).2.2.2⟩

/-- C8: when clearing the namespace before re-ingestion, a delete failure
whose message indicates "namespace not found" (or a 404 status) is swallowed
as a no-op success — the run's outcome and request trace are identical to a
successful delete and ingestion continues into the embedding step — while a
delete failure with any other message propagates immediately with no further
request. -/
theorem c8_delete_not_found_swallowed (env : Env) (prov : EmbedProvider)
    (st : PineconeState) (cachedDim : Option Nat) (inp : IngestInput)
    (ns : String) (dim : Nat) (dimCalls : List ExtCall) (idx : String)
    (st1 : PineconeState) (pcCalls : List ExtCall) (msg : String)
    (hT : ¬ pyStrip inp.pdfText = "")
    (hG : getEmbeddingModel env = .ok ())
    (hD : getEmbeddingDimension env prov cachedDim = (.ok dim, dimCalls))
    (hP : getPineconeIndexI env st dim = (.ok idx, st1, pcCalls)) :
    (nsNotFoundMsg msg = true →
        (ingestPdfBytes env prov st cachedDim inp (some msg) ns true).1
          = (ingestPdfBytes env prov st cachedDim inp none ns true).1
        ∧ (ingestPdfBytes env prov st cachedDim inp (some msg) ns true).2.2
          = (ingestPdfBytes env prov st cachedDim inp none ns true).2.2
        ∧ ExtCall.embedDocuments (inp.split inp.pdfText)
            ∈ (ingestPdfBytes env prov st cachedDim inp (some msg) ns true).2.2)
  ∧ (nsNotFoundMsg msg = false →
        ingestPdfBytes env prov st cachedDim inp (some msg) ns true
          = (.error (.deleteError msg), st1,
             [ExtCall.splitText] ++ dimCalls ++ pcCalls
               ++ [ExtCall.deleteAll ns])) := by
  constructor
  · intro hmsg
    rcases hE : prov.embedDocuments (inp.split inp.pdfText) with m | v <;>
      · refine ⟨?_, ?_, ?_⟩ <;>
          simp only [ingestPdfBytes, if_neg hT, hG, hD, hP, hE, hmsg] <;>
          simp [List.mem_append]
  · intro hmsg
    simp only [ingestPdfBytes, if_neg hT, hG, hD, hP, hmsg]
    rfl

/-- Witness for C8: a "Namespace not found" delete failure yields the same
outcome and trace as a successful delete; a "quota exceeded" delete failure
propagates as the delete error. -/
theorem c8_witness :
    ((ingestPdfBytes wEnv wProv wStore (some 3) wInpB
          (some "Namespace not found") "latest" true).1
        = (ingestPdfBytes wEnv wProv wStore (some 3) wInpB none
            "latest" true).1)
  ∧ ingestPdfBytes wEnv wProv wStore (some 3) wInpB (some "quota exceeded")
        "latest" true
      = (.error (.deleteError "quota exceeded"), wStore,
         [ExtCall.splitText]
           ++ [ExtCall.listIndexes, ExtCall.describeIndex "idx",
               ExtCall.describeIndex "idx"]
           ++ [ExtCall.deleteAll "latest"]) :=
  ⟨((c8_delete_not_found_swallowed wEnv wProv wStore (some 3) wInpB "latest" 3
      [] "idx" wStore
      [ExtCall.listIndexes, ExtCall.describeIndex "idx", ExtCall.describeIndex "idx"]
      "Namespace not found" (by decide) rfl rfl rfl).1 (by decide)).1,
   (c8_delete_not_found_swallowed wEnv wProv wStore (some 3) wInpB "latest" 3
      [] "idx" wStore
      [ExtCall.listIndexes, ExtCall.describeIndex "idx", ExtCall.describeIndex "idx"]
      "quota exceeded" (by decide) rfl rfl rfl).2 (by decide)⟩

/-- C1 as stated is violated: `ingest_pdf_bytes` clears the namespace before
producing the embeddings, so on a run where the embedding request fails after
a requested replace, the previously stored record has already been deleted
(the namespace is not left intact). -/
theorem c1_counterexample_delete_before_embedding :
    (ingestPdfBytes wEnv wProvFail wStore (some 3) wInpB none "latest" true).1
      = .error (.providerError "boom")
  ∧ wRecA ∈ wStore.records
  ∧ wRecA ∉ (ingestPdfBytes wEnv wProvFail wStore (some 3) wInpB none
      "latest" true).2.1.records := by
  exact ⟨by decide, by decide, by decide⟩

/-- C1 (amended): the upsert happens only after the embeddings are
successfully produced, so an embedding failure writes no records (no upsert
request is ever issued); but the namespace delete precedes the embedding
step, so when a replace was requested and the delete succeeded, an embedding
failure leaves the namespace already cleared rather than intact. -/
theorem c1_embedding_failure_no_partial_upsert (env : Env)
    (prov : EmbedProvider) (st : PineconeState) (cachedDim : Option Nat)
    (inp : IngestInput) (ns : String) (replace : Bool) (dim : Nat)
    (dimCalls : List ExtCall) (idx : String) (st1 : PineconeState)
    (pcCalls : List ExtCall) (msg : String)
    (hT : ¬ pyStrip inp.pdfText = "")
    (hG : getEmbeddingModel env = .ok ())
    (hD : getEmbeddingDimension env prov cachedDim = (.ok dim, dimCalls))
    (hP : getPineconeIndexI env st dim = (.ok idx, st1, pcCalls))
    (hE : prov.embedDocuments (inp.split inp.pdfText) = .error msg) :
    (ingestPdfBytes env prov st cachedDim inp none ns replace).1
        = .error (.providerError msg)
  ∧ (ingestPdfBytes env prov st cachedDim inp none ns replace).2.1.records
      = (if replace then st1.records.filter (fun r => !(r.ns == ns))
         else st1.records)
  ∧ ∀ c ∈ (ingestPdfBytes env prov st cachedDim inp none ns replace).2.2,
      c.isUpsertCall = false := by
  have hdim2 : (getEmbeddingDimension env prov cachedDim).2 = dimCalls := by
    rw [hD]
  have hpc2 : (getPineconeIndexI env st dim).2.2 = pcCalls := by
    rw [hP]
  cases replace <;>
    refine ⟨?_, ?_, ?_⟩ <;>
      simp only [ingestPdfBytes, if_neg hT, hG, hD, hP, hE]
  · rfl
  · rfl
  · intro c hc
    simp only [Bool.false_eq_true, if_false, List.append_nil,
      List.mem_append, List.mem_singleton, List.mem_cons,
      List.not_mem_nil, or_false] at hc
    rcases hc with ((rfl | hc) | hc) | rfl
    · rfl
    · exact (getEmbeddingDimension_not_pinecone env prov cachedDim c
        (by rw [hdim2]; exact hc)).2
    · exact getPineconeIndexI_no_upsert env st dim c (by rw [hpc2]; exact hc)
    · rfl
  · rfl
  · rfl
  · intro c hc
    simp only [if_true, List.mem_append, List.mem_singleton, List.mem_cons,
      List.not_mem_nil, or_false] at hc
    rcases hc with (((rfl | hc) | hc) | rfl) | rfl
    · rfl
    · exact (getEmbeddingDimension_not_pinecone env prov cachedDim c
        (by rw [hdim2]; exact hc)).2
    · exact getPineconeIndexI_no_upsert env st dim c (by rw [hpc2]; exact hc)
    · rfl
    · rfl

/-- Witness for C1 (amended): on a concrete failing-embedding run with a
requested replace, the result is the provider error, the namespace has been
cleared, and no upsert request appears in the trace. -/
theorem c1_witness :
    (ingestPdfBytes wEnv wProvFail wStore (some 3) wInpB none "latest" true).1
        = .error (.providerError "boom")
  ∧ (ingestPdfBytes wEnv wProvFail wStore (some 3) wInpB none
        "latest" true).2.1.records
      = (if true then wStore.records.filter (fun r => !(r.ns == "latest"))
         else wStore.records) :=
  ⟨(c1_embedding_failure_no_partial_upsert wEnv wProvFail wStore (some 3)
      wInpB "latest" true 3 [] "idx" wStore
      [ExtCall.listIndexes, ExtCall.describeIndex "idx", ExtCall.describeIndex "idx"]
      "boom" (by decide) rfl rfl rfl rfl).1,
   (c1_embedding_failure_no_partial_upsert wEnv wProvFail wStore (some 3)
      wInpB "latest" true 3 [] "idx" wStore
      [ExtCall.listIndexes, ExtCall.describeIndex "idx", ExtCall.describeIndex "idx"]
      "boom" (by decide) rfl rfl rfl rfl).2.1⟩

/-- C5 as stated is violated: `replace_namespace` defaults to `False`, and a
call without it merges rather than replaces — after successfully ingesting
document B into a namespace holding a record of document A, the A record is
still present. -/
theorem c5_counterexample_default_no_replace :
    (ingestPdfBytes wEnv wProv wStore (some 3) wInpB none "latest" false).1
      = .ok ()
  ∧ wRecA ∈ (ingestPdfBytes wEnv wProv wStore (some 3) wInpB none
      "latest" false).2.1.records := by
  exact ⟨by decide, by decide⟩

/-- C5 (amended): wholesale replacement holds for calls with
`replace_namespace=True` (as the UI's ingestion always passes): after a
successful ingestion of document B with a successful delete, every record
remaining in the target namespace belongs to B's freshly upserted payload, so
no record of a previously held document A remains. -/
theorem c5_replace_semantics (env : Env) (prov : EmbedProvider)
    (st : PineconeState) (cachedDim : Option Nat) (inp : IngestInput)
    (ns : String) (dim : Nat) (dimCalls : List ExtCall) (idx : String)
    (st1 : PineconeState) (pcCalls : List ExtCall) (vectors : List Vec)
    (hT : ¬ pyStrip inp.pdfText = "")
    (hG : getEmbeddingModel env = .ok ())
    (hD : getEmbeddingDimension env prov cachedDim = (.ok dim, dimCalls))
    (hP : getPineconeIndexI env st dim = (.ok idx, st1, pcCalls))
    (hE : prov.embedDocuments (inp.split inp.pdfText) = .ok vectors) :
    (ingestPdfBytes env prov st cachedDim inp none ns true).1 = .ok ()
  ∧ ∀ r ∈ (ingestPdfBytes env prov st cachedDim inp none ns true).2.1.records,
      r.ns = ns →
      r ∈ mkPayload ns inp.uuidHex (inp.split inp.pdfText) vectors := by
  have hrec : (ingestPdfBytes env prov st cachedDim inp none ns true).2.1.records
      = upsertRecords (st1.records.filter (fun r => !(r.ns == ns))) ns
          (mkPayload ns inp.uuidHex (inp.split inp.pdfText) vectors) := by
    simp only [ingestPdfBytes, if_neg hT, hG, hD, hP, hE]
    rfl
  constructor
  · simp only [ingestPdfBytes, if_neg hT, hG, hD, hP, hE]
    rfl
  · intro r hr hns
    rw [hrec] at hr
    simp only [upsertRecords, List.mem_append, List.mem_filter] at hr
    rcases hr with ⟨⟨-, hq⟩, -⟩ | hr
    · simp [hns] at hq
    · exact hr

/-- Witness for C5 (amended): after a successful replace-ingestion of
document B, the previously stored record of document A is gone. -/
theorem c5_witness :
    (ingestPdfBytes wEnv wProv wStore (some 3) wInpB none "latest" true).1
      = .ok ()
  ∧ wRecA ∉ (ingestPdfBytes wEnv wProv wStore (some 3) wInpB none
      "latest" true).2.1.records := by
  have h := c5_replace_semantics wEnv wProv wStore (some 3) wInpB "latest" 3
    [] "idx" wStore
    [ExtCall.listIndexes, ExtCall.describeIndex "idx", ExtCall.describeIndex "idx"]
    [[1]] (by decide) rfl rfl rfl rfl
  refine ⟨h.1, fun hmem => ?_⟩
  have hp := h.2 wRecA hmem (by decide)
  revert hp
  decide
